import Mathlib

/-!
Verification of the concurrent multi-source aggregation layer of the
japanfinance-agent repository, as a shallow embedding in Lean 4.

The embedding models:
- the behaviour of one guarded asynchronous provider call
  (`CoroBehavior`: completes with a value, raises an exception, or hits
  its deadline);
- the timeout guard of `analysis.py` (Python name: a coroutine wrapper
  around asyncio.wait_for that returns a TimeoutError object as a value
  on deadline expiry and re-raises any other exception);
- the capture performed by asyncio.gather with return_exceptions set,
  which turns a raised exception into a returned value (`PyRes.excVal`);
- the three aggregator entry points of `analysis.py`
  (`analyze_company`, `macro_snapshot`, `earnings_monitor`);
- the adapter layer of `adapters.py` that the availability-probe claims
  are about (`check_available_sources`, `test_connections`, `get_news`),
  with an explicit effect trace distinguishing import probes from
  network calls.

Python dicts carrying provider records become structures holding exactly
the fields the aggregation layer reads; Python string-or-None truthiness
tests become `pyTruthy`, and the Python `or` backfill on display names
becomes `pyOrStr` (the empty string is falsy in Python).
-/

namespace JFA

/-- Behaviour of one asynchronous provider call as observed by the
timeout guard: it completes with a value within the deadline, raises an
exception (whose message we record), or fails to complete before the
deadline expires. -/
inductive CoroBehavior (α : Type) where
  | completes : α → CoroBehavior α
  | raises : String → CoroBehavior α
  | timesOut : CoroBehavior α
deriving DecidableEq, Repr

/-- A value delivered into the aggregator after gather-with-capture:
either a normal value, or a BaseException object held as a value (a
raised exception captured by gather, or the TimeoutError object the
guard returns on expiry). -/
inductive PyRes (α : Type) where
  | val : α → PyRes α
  | excVal : String → PyRes α
deriving DecidableEq, Repr

/-- Result of running one guarded call: either it returns (a normal
value or an exception object as a value) or an exception propagates out
of the guard. -/
inductive GuardStep (α : Type) where
  | returns : PyRes α → GuardStep α
  | raised : String → GuardStep α
deriving DecidableEq, Repr

/-- Message of the TimeoutError object built by the guard on expiry; it
embeds the deadline duration (source: "timed out after {timeout}s"). -/
def timeoutMsg (t : String) : String := "timed out after " ++ t ++ "s"

/-- Default per-task deadline of analysis.py, 15.0 seconds, kept as its
printed form since only its text reaches the produced value. -/
def TASK_TIMEOUT : String := "15.0"

/-- The timeout guard of analysis.py: awaits the call under
asyncio.wait_for; a completed call has its value returned, deadline
expiry is caught and a TimeoutError object carrying the deadline is
returned as a value, and any other exception from the call propagates. -/
def with_timeout (b : CoroBehavior α) (t : String) : GuardStep α :=
  match b with
  | .completes a => .returns (.val a)
  | .raises m => .raised m
  | .timesOut => .returns (.excVal (timeoutMsg t))

/-- Capture performed by asyncio.gather with return_exceptions set at
the aggregator call site: a raised exception becomes a value in the
results list. -/
def gatherCapture (g : GuardStep α) : PyRes α :=
  match g with
  | .returns r => r
  | .raised m => .excVal m

/-- Outcome of one guarded provider call as the aggregator receives it
from gather (guard under the default deadline, then capture). -/
def aggRecv (b : CoroBehavior α) : PyRes α :=
  gatherCapture (with_timeout b TASK_TIMEOUT)

/-- The call behaviour is a provider failure or a deadline expiry. -/
def failsOrTimesOut (b : CoroBehavior α) : Prop :=
  (∃ m, b = .raises m) ∨ b = .timesOut

/-- Python truthiness of a string-or-None value: None and the empty
string are falsy. -/
def pyTruthy : Option String → Bool
  | none => false
  | some s => s ≠ ""

/-- Python `a or b` on string-or-None values, as used by the display
name backfill in analysis.py: keep `a` when it is truthy. -/
def pyOrStr (a b : Option String) : Option String :=
  match a with
  | none => b
  | some s => if s = "" then b else some s

/-- Company record produced by the company-search adapter; the
aggregator reads the edinet_code and name keys of the first match. -/
structure SearchRec where
  edinet_code : String
  name : String
deriving DecidableEq, Repr

/-- Statements record; the aggregator reads only its optional
company_name key (dict.get returns None when the key is missing). -/
structure StmtRec where
  company_name : Option String
deriving DecidableEq, Repr

/-- Disclosure record; the aggregator reads only the optional
company_name key of the first list element. -/
structure DiscRec where
  company_name : Option String
deriving DecidableEq, Repr

/-- News record; the aggregator never reads its fields. -/
structure NewsRec where
  title : Option String
deriving DecidableEq, Repr

/-- Price record; the aggregator never reads its fields. -/
structure PriceRec where
  code : String
deriving DecidableEq, Repr

/-- Result shape of analyze_company (the CompanyAnalysis TypedDict). -/
structure CompanyAnalysis where
  code : String
  edinet_code : Option String
  company_name : Option String
  statements : Option StmtRec
  disclosures : List DiscRec
  news : List NewsRec
  stock_price : Option PriceRec
  sources_used : List String
deriving DecidableEq, Repr

/-- Resolution step of analyze_company: when no edinet_code argument is
given, the company-search adapter is consulted and a non-empty match
list supplies the first match's identifier and display name. -/
def resolveCompany (e0 : Option String) (search : List SearchRec) :
    Option String × Option String :=
  match e0 with
  | some e => (some e, none)
  | none =>
    match search with
    | [] => (none, none)
    | c :: _ => (some c.edinet_code, some c.name)

/-- Statements value as the aggregator observes it: the statements task
is registered only when the resolved edinet_code is truthy; otherwise
results.get yields None for the missing key. -/
def stmtRaw (e : Option String) (stmtB : CoroBehavior (Option StmtRec)) :
    PyRes (Option StmtRec) :=
  if pyTruthy e then aggRecv stmtB else .val none

/-- Narrowing applied to an optional-record outcome: an exception value
is logged and treated as absent. -/
def procOpt (r : PyRes (Option α)) : Option α :=
  match r with
  | .excVal _ => none
  | .val o => o

/-- Narrowing applied to a list outcome: an exception value is logged
and treated as the empty list. -/
def procList (r : PyRes (List α)) : List α :=
  match r with
  | .excVal _ => []
  | .val l => l

/-- The analyze_company aggregator. Parameters after the code and the
optional edinet_code argument give the outcome of each provider call:
the company-search result list (that adapter converts its own failures
to an empty list before this function sees them) and the behaviours of
the guarded statements, disclosures, news and stock-price calls. -/
def analyze_company (code : String) (e0 : Option String)
    (search : List SearchRec)
    (stmtB : CoroBehavior (Option StmtRec))
    (discB : CoroBehavior (List DiscRec))
    (newsB : CoroBehavior (List NewsRec))
    (stockB : CoroBehavior (Option PriceRec)) : CompanyAnalysis :=
  let r := resolveCompany e0 search
  let ec := r.1
  let name0 := r.2
  let statements := procOpt (stmtRaw ec stmtB)
  let disclosures := procList (aggRecv discB)
  let news := procList (aggRecv newsB)
  let stock_price := procOpt (aggRecv stockB)
  let name1 :=
    match statements with
    | some s => pyOrStr name0 s.company_name
    | none => name0
  let name2 :=
    match disclosures with
    | d :: _ => pyOrStr name1 d.company_name
    | [] => name1
  { code := code
    edinet_code := ec
    company_name := name2
    statements := statements
    disclosures := disclosures
    news := news
    stock_price := stock_price
    sources_used :=
      (if statements.isSome then ["edinet"] else []) ++
      (if disclosures.isEmpty then [] else ["tdnet"]) ++
      (if news.isEmpty then [] else ["news"]) ++
      (if stock_price.isSome then ["jquants"] else []) }

/-- Statistics table record produced by the e-Stat adapter; the
aggregator never reads its fields. -/
structure EstatRec where
  stats_id : String
  title : String
deriving DecidableEq, Repr

/-- BOJ dataset record; the aggregator never reads its fields. -/
structure BojRec where
  name : String
deriving DecidableEq, Repr

/-- Result shape of macro_snapshot (the MacroSnapshot TypedDict). -/
structure MacroSnapshot where
  estat_data : List EstatRec
  boj_data : Option BojRec
  news : List NewsRec
  sources_used : List String
deriving DecidableEq, Repr

/-- The macro_snapshot aggregator: the e-Stat and news tasks are always
registered and the BOJ task only when the boj_dataset argument is
truthy; an exception value is narrowed to empty or absent, non-empty
data appends the source name, and processing runs in the source order
estat, boj, news. -/
def macro_snapshot (_keyword : String) (boj_dataset : Option String)
    (estatB : CoroBehavior (List EstatRec))
    (newsB : CoroBehavior (List NewsRec))
    (bojB : CoroBehavior (Option BojRec)) : MacroSnapshot :=
  let estat_data := procList (aggRecv estatB)
  let boj_data :=
    procOpt (if pyTruthy boj_dataset then aggRecv bojB else .val none)
  let news := procList (aggRecv newsB)
  { estat_data := estat_data
    boj_data := boj_data
    news := news
    sources_used :=
      (if estat_data.isEmpty then [] else ["estat"]) ++
      (if boj_data.isSome then ["boj"] else []) ++
      (if news.isEmpty then [] else ["news"]) }

/-- Metrics placeholder record of an earnings entry; the aggregator
always stores the absent value in that field. -/
structure MetricsRec where
  payload : String
deriving DecidableEq, Repr

/-- Single company entry of the earnings monitor result (the
EarningsEntry TypedDict). -/
structure EarningsEntry where
  code : String
  company_name : Option String
  disclosures : List DiscRec
  metrics : Option MetricsRec
deriving DecidableEq, Repr

/-- Result shape of earnings_monitor (the EarningsMonitor TypedDict). -/
structure EarningsMonitor where
  companies : List EarningsEntry
  total_disclosures : Nat
  sources_used : List String
deriving DecidableEq, Repr

/-- Construction of one earnings entry from a code and the behaviour of
its guarded disclosures call: an exception value gives the empty list,
the display name comes from the first disclosure when one exists, and
the metrics field is always absent. -/
def earningsEntry (code : String) (b : CoroBehavior (List DiscRec)) :
    EarningsEntry :=
  let disclosures := procList (aggRecv b)
  { code := code
    company_name :=
      match disclosures with
      | [] => none
      | d :: _ => d.company_name
    disclosures := disclosures
    metrics := none }

/-- Accumulation of the disclosure total exactly as the source does it:
the count is added only inside the non-empty branch (adding a zero-length
list is skipped, with no effect on the value). -/
def earningsTotal (entries : List EarningsEntry) : Nat :=
  entries.foldl
    (fun acc e =>
      if e.disclosures.isEmpty then acc else acc + e.disclosures.length)
    0

/-- The earnings_monitor aggregator: one guarded disclosures call per
input code, zipped strictly back against the codes in input order; the
watchlist source name is recorded once iff the accumulated total is
positive. -/
def earnings_monitor (codes : List String)
    (outs : List (CoroBehavior (List DiscRec))) : EarningsMonitor :=
  let companies := (codes.zip outs).map fun p => earningsEntry p.1 p.2
  let total := earningsTotal companies
  { companies := companies
    total_disclosures := total
    sources_used := if total > 0 then ["tdnet"] else [] }

/-! Adapter layer: the news stub, the availability probe and the
connectivity check of adapters.py. Effects performed against the outside
world are recorded in a trace so that purity claims are contentful. -/

/-- Observable effect of an adapter-layer call: probing whether a
package is importable, or a live network call against a provider. -/
inductive Effect where
  | importProbe : String → Effect
  | network : String → Effect
deriving DecidableEq, Repr

/-- Environment the adapter layer runs in: which packages are
importable, and how each backing client behaves when invoked (a value,
or a raised exception with its message). -/
inductive ClientB (α : Type) where
  | ret : α → ClientB α
  | raises : String → ClientB α
deriving DecidableEq, Repr

/-- Importability probe of adapters.py: attempts the import and reports
whether it succeeded; its only effect is the import probe itself. -/
def is_available (env : String → Bool) (pkg : String) :
    Bool × List Effect :=
  (env pkg, [Effect.importProbe pkg])

/-- Source-name to package-name table of check_available_sources. -/
def sourcePkgs : List (String × String) :=
  [("edinet", "edinet_mcp"), ("tdnet", "tdnet_disclosure_mcp"),
   ("estat", "estat_mcp"), ("boj", "boj_mcp"), ("stock", "yfinance_mcp")]

/-- The availability probe of adapters.py: maps each source name to the
importability of its backing package, performing only import probes. -/
def check_available_sources (env : String → Bool) :
    List (String × Bool) × List Effect :=
  sourcePkgs.foldl
    (fun acc p =>
      let r := is_available env p.2
      (acc.1 ++ [(p.1, r.1)], acc.2 ++ r.2))
    ([], [])

/-- The news adapter after removal of the news source: it ignores its
arguments and returns the empty list without touching the network. -/
def get_news (_query : Option String) (_limit : Nat) : List NewsRec :=
  []

/-- Raw company list held by the EDINET client, as consumed by the
search adapter (edinet_code, name, ticker per company). -/
structure EdinetCompany where
  edinet_code : String
  name : String
  ticker : String
deriving DecidableEq, Repr

/-- The EDINET company-search adapter: absent package gives the empty
list with no client call; otherwise the client runs on the network, a
raised exception is caught and logged into an empty list, and a value is
truncated to the first ten matches. -/
def search_companies_edinet (env : String → Bool)
    (client : ClientB (List EdinetCompany)) (_query : String) :
    List SearchRec × List Effect :=
  let avail := is_available env "edinet_mcp"
  if avail.1 then
    match client with
    | .ret cs =>
      ((cs.take 10).map fun c => ⟨c.edinet_code, c.name⟩,
        avail.2 ++ [Effect.network "edinet"])
    | .raises _ => ([], avail.2 ++ [Effect.network "edinet"])
  else ([], avail.2)

/-- Disclosure record of the latest-disclosures feed; test_connections
reads only how many there are. -/
structure LatestDisc where
  title : String
deriving DecidableEq, Repr

/-- The TDNET latest-disclosures adapter: absent package gives the empty
list; otherwise the client runs, a raised exception becomes an empty
list, and a value passes through. -/
def get_latest_disclosures (env : String → Bool)
    (client : ClientB (List LatestDisc)) (_limit : Nat) :
    List LatestDisc × List Effect :=
  let avail := is_available env "tdnet_disclosure_mcp"
  if avail.1 then
    match client with
    | .ret ds => (ds, avail.2 ++ [Effect.network "tdnet"])
    | .raises _ => ([], avail.2 ++ [Effect.network "tdnet"])
  else ([], avail.2)

/-- The e-Stat search adapter: absent package gives the empty list;
otherwise the client runs, a raised exception becomes an empty list,
and a value passes through. -/
def get_estat_data (env : String → Bool)
    (client : ClientB (List EstatRec)) (_keyword : String) (_limit : Nat) :
    List EstatRec × List Effect :=
  let avail := is_available env "estat_mcp"
  if avail.1 then
    match client with
    | .ret ts => (ts, avail.2 ++ [Effect.network "estat"])
    | .raises _ => ([], avail.2 ++ [Effect.network "estat"])
  else ([], avail.2)

/-- Status string test_connections builds for one source given its
availability and the client behaviours: unavailable sources report "not
installed", the probe-by-search sources report an ok string carrying
their result count, the boj and stock sources report installation only,
and a source name matching no branch of the chain records no entry at
all (the backing adapters absorb their clients' exceptions, so the
surrounding try can only deliver one of these strings). -/
def connectionStatus (env : String → Bool)
    (edinetC : ClientB (List EdinetCompany))
    (tdnetC : ClientB (List LatestDisc))
    (estatC : ClientB (List EstatRec))
    (source : String) (avail : Bool) : Option String :=
  if !avail then some "not installed"
  else if source = "edinet" then
    some ("ok ("
      ++ toString (search_companies_edinet env edinetC "トヨタ").1.length
      ++ " results)")
  else if source = "tdnet" then
    some ("ok (" ++ toString (get_latest_disclosures env tdnetC 1).1.length
      ++ " results)")
  else if source = "news" then
    some ("ok (" ++ toString (get_news (some "dummy") 1).length
      ++ " results)")
  else if source = "estat" then
    some ("ok (" ++ toString (get_estat_data env estatC "GDP" 1).1.length
      ++ " results)")
  else if source = "boj" ∨ source = "stock" then some "ok (installed)"
  else none

/-- The connectivity check of adapters.py: walks the availability map
and records one status string per source; every per-source failure of a
backing client is absorbed by the adapter it reaches, so each recorded
entry is a plain string and the walk itself raises nothing. -/
def test_connections (env : String → Bool)
    (edinetC : ClientB (List EdinetCompany))
    (tdnetC : ClientB (List LatestDisc))
    (estatC : ClientB (List EstatRec)) : List (String × String) :=
  ((check_available_sources env).1).foldl
    (fun acc p =>
      match connectionStatus env edinetC tdnetC estatC p.1 p.2 with
      | some s => acc ++ [(p.1, s)]
      | none => acc)
    []

/-- Status-string form "ok (N results)" with N a count, from the spec's
description of test_connections. -/
def okNForm (s : String) : Prop :=
  ∃ n : Nat, s = "ok (" ++ toString n ++ " results)"

/-- Status-string form "error: <reason>" from the spec's description of
test_connections. -/
def errForm (s : String) : Prop :=
  ∃ r : String, s = "error: " ++ r

/-- The three status-string forms the spec claims test_connections is
limited to. -/
def claimedStatusForm (s : String) : Prop :=
  okNForm s ∨ errForm s ∨ s = "not installed"

/-- Status-string forms the code actually produces: the spec's three
forms plus the installation-only acknowledgement used for the boj and
stock sources. -/
def amendedStatusForm (s : String) : Prop :=
  claimedStatusForm s ∨ s = "ok (installed)"

/-- Environment in which only the BOJ backing package is importable. -/
def envBojOnly : String → Bool := fun p => p == "boj_mcp"

/-! Helper lemmas about the outcome-narrowing steps. -/

theorem procOpt_isSome_iff {α : Type} (r : PyRes (Option α)) :
    (procOpt r).isSome = true ↔ ∃ a, r = PyRes.val (some a) := by
  cases r with
  | val o => cases o <;> simp [procOpt]
  | excVal m => simp [procOpt]

theorem procList_ne_nil_iff {α : Type} (r : PyRes (List α)) :
    procList r ≠ [] ↔ ∃ l, r = PyRes.val l ∧ l ≠ [] := by
  cases r with
  | val l => simp [procList]
  | excVal m => simp [procList]

theorem procList_of_failsOrTimesOut {α : Type} {b : CoroBehavior (List α)}
    (h : failsOrTimesOut b) : procList (aggRecv b) = [] := by
  rcases h with ⟨m, rfl⟩ | rfl <;> rfl

theorem procOpt_of_failsOrTimesOut {α : Type} {b : CoroBehavior (Option α)}
    (h : failsOrTimesOut b) : procOpt (aggRecv b) = none := by
  rcases h with ⟨m, rfl⟩ | rfl <;> rfl

theorem aggRecv_completes {α : Type} (a : α) :
    aggRecv (CoroBehavior.completes a) = PyRes.val a := rfl

theorem aggRecv_raises {α : Type} (m : String) :
    aggRecv (CoroBehavior.raises m : CoroBehavior α) = PyRes.excVal m := rfl

theorem aggRecv_timesOut {α : Type} :
    aggRecv (CoroBehavior.timesOut : CoroBehavior α)
      = PyRes.excVal (timeoutMsg TASK_TIMEOUT) := rfl

/-- C7: the timeout guard returns the operation's outcome when it
completes within the deadline; on expiry it returns a TimeoutError value
carrying the deadline duration instead of raising; and at the aggregator
call site (gather with return_exceptions) both a timeout and a failure
of the underlying operation arrive as outcome values, never as a raised
exception (the capture's codomain has no raising form). -/
theorem with_timeout_contract {α : Type} (t : String) (a : α) (m : String) :
    with_timeout (CoroBehavior.completes a) t = GuardStep.returns (PyRes.val a)
    ∧ with_timeout (CoroBehavior.timesOut : CoroBehavior α) t
        = GuardStep.returns (PyRes.excVal (timeoutMsg t))
    ∧ gatherCapture (with_timeout (CoroBehavior.completes a) t) = PyRes.val a
    ∧ gatherCapture (with_timeout (CoroBehavior.raises m : CoroBehavior α) t)
        = PyRes.excVal m
    ∧ gatherCapture (with_timeout (CoroBehavior.timesOut : CoroBehavior α) t)
        = PyRes.excVal (timeoutMsg t) :=
  ⟨rfl, rfl, rfl, rfl, rfl⟩

/-- C1: with no edinet_code resolved (none supplied and an empty search
result) and every guarded provider call failing or timing out,
analyze_company still produces a result — in the embedding it is a total
function, so no exception escapes — with empty sources_used, absent
statements, absent stock_price, absent company_name and empty
disclosures. -/
theorem analyze_company_total_failure (code : String)
    (stmtB : CoroBehavior (Option StmtRec))
    (discB : CoroBehavior (List DiscRec))
    (newsB : CoroBehavior (List NewsRec))
    (stockB : CoroBehavior (Option PriceRec))
    (_hs : failsOrTimesOut stmtB) (hd : failsOrTimesOut discB)
    (hn : failsOrTimesOut newsB) (hp : failsOrTimesOut stockB) :
    (analyze_company code none [] stmtB discB newsB stockB).sources_used = []
    ∧ (analyze_company code none [] stmtB discB newsB stockB).statements = none
    ∧ (analyze_company code none [] stmtB discB newsB stockB).stock_price = none
    ∧ (analyze_company code none [] stmtB discB newsB stockB).company_name = none
    ∧ (analyze_company code none [] stmtB discB newsB stockB).disclosures = [] := by
  rcases hd with ⟨m1, rfl⟩ | rfl <;> rcases hn with ⟨m2, rfl⟩ | rfl <;>
    rcases hp with ⟨m3, rfl⟩ | rfl <;>
    exact ⟨rfl, rfl, rfl, rfl, rfl⟩

/-- Witness for C1 at a concrete total-failure input. -/
theorem analyze_company_total_failure_witness :
    (analyze_company "9999" none [] CoroBehavior.timesOut
        (CoroBehavior.raises "boom") CoroBehavior.timesOut
        (CoroBehavior.raises "down")).sources_used = []
    ∧ (analyze_company "9999" none [] CoroBehavior.timesOut
        (CoroBehavior.raises "boom") CoroBehavior.timesOut
        (CoroBehavior.raises "down")).statements = none
    ∧ (analyze_company "9999" none [] CoroBehavior.timesOut
        (CoroBehavior.raises "boom") CoroBehavior.timesOut
        (CoroBehavior.raises "down")).stock_price = none
    ∧ (analyze_company "9999" none [] CoroBehavior.timesOut
        (CoroBehavior.raises "boom") CoroBehavior.timesOut
        (CoroBehavior.raises "down")).company_name = none
    ∧ (analyze_company "9999" none [] CoroBehavior.timesOut
        (CoroBehavior.raises "boom") CoroBehavior.timesOut
        (CoroBehavior.raises "down")).disclosures = [] :=
  analyze_company_total_failure "9999" _ _ _ _ (Or.inr rfl)
    (Or.inl ⟨"boom", rfl⟩) (Or.inr rfl) (Or.inl ⟨"down", rfl⟩)

/-- C4 fails as stated: a realizable run meets every premise of the
scenario — edinet_code resolved through company search, statements
record named "Example Corp", one disclosure named "Example Corp",
absent price, empty news as the news adapter always produces — yet the
display name taken from the first search match ("Other Corp") wins the
backfill, so company_name is "Other Corp", not "Example Corp". -/
theorem analyze_company_scenario_counterexample :
    (analyze_company "7203" none [⟨"E02144", "Other Corp"⟩]
        (CoroBehavior.completes (some ⟨some "Example Corp"⟩))
        (CoroBehavior.completes [⟨some "Example Corp"⟩])
        (CoroBehavior.completes [])
        (CoroBehavior.completes none)).statements
      = some ⟨some "Example Corp"⟩
    ∧ (analyze_company "7203" none [⟨"E02144", "Other Corp"⟩]
        (CoroBehavior.completes (some ⟨some "Example Corp"⟩))
        (CoroBehavior.completes [⟨some "Example Corp"⟩])
        (CoroBehavior.completes [])
        (CoroBehavior.completes none)).disclosures
      = [⟨some "Example Corp"⟩]
    ∧ (analyze_company "7203" none [⟨"E02144", "Other Corp"⟩]
        (CoroBehavior.completes (some ⟨some "Example Corp"⟩))
        (CoroBehavior.completes [⟨some "Example Corp"⟩])
        (CoroBehavior.completes [])
        (CoroBehavior.completes none)).stock_price = none
    ∧ (analyze_company "7203" none [⟨"E02144", "Other Corp"⟩]
        (CoroBehavior.completes (some ⟨some "Example Corp"⟩))
        (CoroBehavior.completes [⟨some "Example Corp"⟩])
        (CoroBehavior.completes [])
        (CoroBehavior.completes none)).sources_used = ["edinet", "tdnet"]
    ∧ (analyze_company "7203" none [⟨"E02144", "Other Corp"⟩]
        (CoroBehavior.completes (some ⟨some "Example Corp"⟩))
        (CoroBehavior.completes [⟨some "Example Corp"⟩])
        (CoroBehavior.completes [])
        (CoroBehavior.completes none)).company_name = some "Other Corp"
    ∧ (analyze_company "7203" none [⟨"E02144", "Other Corp"⟩]
        (CoroBehavior.completes (some ⟨some "Example Corp"⟩))
        (CoroBehavior.completes [⟨some "Example Corp"⟩])
        (CoroBehavior.completes [])
        (CoroBehavior.completes none)).company_name ≠ some "Example Corp" :=
  ⟨rfl, rfl, rfl, rfl, rfl, by decide⟩

/-- C4 as amended: in any run of analyze_company — the news behaviour
restricted to what the news adapter can produce, namely an empty
completion, a failure or a timeout — where the observed statements
outcome is a record whose company_name is "Example Corp", the observed
disclosures outcome is a one-element list whose record's company_name
is "Example Corp", the observed price outcome is the absent value, and
the display name resolved from company search before the fetch (when
edinet_code is not supplied) is absent, empty, or itself "Example
Corp", the result has sources_used exactly ["edinet", "tdnet"] in that
order (statements-source before disclosures-source, matching
registration order), company_name "Example Corp" and absent
stock_price. -/
theorem analyze_company_scenario (code : String) (e0 : Option String)
    (search : List SearchRec)
    (stmtB : CoroBehavior (Option StmtRec))
    (discB : CoroBehavior (List DiscRec))
    (newsB : CoroBehavior (List NewsRec))
    (stockB : CoroBehavior (Option PriceRec))
    (s : StmtRec) (d : DiscRec)
    (hst : stmtRaw (resolveCompany e0 search).1 stmtB = PyRes.val (some s))
    (hsn : s.company_name = some "Example Corp")
    (hd : aggRecv discB = PyRes.val [d])
    (_hdn : d.company_name = some "Example Corp")
    (hp : aggRecv stockB = PyRes.val none)
    (hnews : ∀ v, newsB = CoroBehavior.completes v → v = [])
    (hname : (resolveCompany e0 search).2 = none
      ∨ (resolveCompany e0 search).2 = some ""
      ∨ (resolveCompany e0 search).2 = some "Example Corp") :
    (analyze_company code e0 search stmtB discB newsB stockB).sources_used
      = ["edinet", "tdnet"]
    ∧ (analyze_company code e0 search stmtB discB newsB stockB).company_name
      = some "Example Corp"
    ∧ (analyze_company code e0 search stmtB discB newsB stockB).stock_price
      = none := by
  cases newsB with
  | completes v =>
    obtain rfl : v = [] := hnews v rfl
    rcases hname with h0 | h0 | h0 <;>
      refine ⟨?_, ?_, ?_⟩ <;>
      simp [analyze_company, hst, hsn, hd, hp, h0,
        aggRecv_completes, procOpt, procList, pyOrStr]
  | raises m =>
    rcases hname with h0 | h0 | h0 <;>
      refine ⟨?_, ?_, ?_⟩ <;>
      simp [analyze_company, hst, hsn, hd, hp, h0,
        aggRecv_raises, procOpt, procList, pyOrStr]
  | timesOut =>
    rcases hname with h0 | h0 | h0 <;>
      refine ⟨?_, ?_, ?_⟩ <;>
      simp [analyze_company, hst, hsn, hd, hp, h0,
        aggRecv_timesOut, procOpt, procList, pyOrStr]

/-- Witness for the amended C4 at a concrete run whose edinet_code is
resolved by a search match carrying the same display name. -/
theorem analyze_company_scenario_witness :
    (analyze_company "7203" none [⟨"E02144", "Example Corp"⟩]
        (CoroBehavior.completes (some ⟨some "Example Corp"⟩))
        (CoroBehavior.completes [⟨some "Example Corp"⟩])
        (CoroBehavior.completes [])
        (CoroBehavior.completes none)).sources_used = ["edinet", "tdnet"]
    ∧ (analyze_company "7203" none [⟨"E02144", "Example Corp"⟩]
        (CoroBehavior.completes (some ⟨some "Example Corp"⟩))
        (CoroBehavior.completes [⟨some "Example Corp"⟩])
        (CoroBehavior.completes [])
        (CoroBehavior.completes none)).company_name = some "Example Corp"
    ∧ (analyze_company "7203" none [⟨"E02144", "Example Corp"⟩]
        (CoroBehavior.completes (some ⟨some "Example Corp"⟩))
        (CoroBehavior.completes [⟨some "Example Corp"⟩])
        (CoroBehavior.completes [])
        (CoroBehavior.completes none)).stock_price = none :=
  analyze_company_scenario "7203" none [⟨"E02144", "Example Corp"⟩]
    (CoroBehavior.completes (some ⟨some "Example Corp"⟩))
    (CoroBehavior.completes [⟨some "Example Corp"⟩])
    (CoroBehavior.completes [])
    (CoroBehavior.completes none)
    ⟨some "Example Corp"⟩ ⟨some "Example Corp"⟩
    rfl rfl rfl rfl rfl
    (fun _v h => (CoroBehavior.completes.inj h).symm)
    (Or.inr (Or.inr rfl))

/-- C2: in every run of analyze_company, sources_used has no duplicate
name, only the four canonical names can appear, and each name appears
iff its source's observed outcome was a success with non-empty content:
a non-absent statements record, a non-empty disclosures list, a
non-empty news list, and a non-absent price record respectively (the
statements outcome as observed is the absent value when the task was
never registered). -/
theorem analyze_company_sources_iff (code : String) (e0 : Option String)
    (search : List SearchRec)
    (stmtB : CoroBehavior (Option StmtRec))
    (discB : CoroBehavior (List DiscRec))
    (newsB : CoroBehavior (List NewsRec))
    (stockB : CoroBehavior (Option PriceRec)) :
    (analyze_company code e0 search stmtB discB newsB stockB).sources_used.Nodup
    ∧ (analyze_company code e0 search stmtB discB newsB stockB).sources_used
        ⊆ ["edinet", "tdnet", "news", "jquants"]
    ∧ ("edinet" ∈ (analyze_company code e0 search stmtB discB newsB stockB).sources_used
        ↔ ∃ s, stmtRaw (resolveCompany e0 search).1 stmtB = PyRes.val (some s))
    ∧ ("tdnet" ∈ (analyze_company code e0 search stmtB discB newsB stockB).sources_used
        ↔ ∃ l, aggRecv discB = PyRes.val l ∧ l ≠ [])
    ∧ ("news" ∈ (analyze_company code e0 search stmtB discB newsB stockB).sources_used
        ↔ ∃ l, aggRecv newsB = PyRes.val l ∧ l ≠ [])
    ∧ ("jquants" ∈ (analyze_company code e0 search stmtB discB newsB stockB).sources_used
        ↔ ∃ p, aggRecv stockB = PyRes.val (some p)) := by
  have hsrc : (analyze_company code e0 search stmtB discB newsB stockB).sources_used =
      (if (procOpt (stmtRaw (resolveCompany e0 search).1 stmtB)).isSome then ["edinet"] else [])
      ++ (if (procList (aggRecv discB)).isEmpty then [] else ["tdnet"])
      ++ (if (procList (aggRecv newsB)).isEmpty then [] else ["news"])
      ++ (if (procOpt (aggRecv stockB)).isSome then ["jquants"] else []) := rfl
  rw [hsrc]
  refine ⟨?_, ?_, ?_, ?_, ?_, ?_⟩
  · split_ifs <;> decide
  · split_ifs <;> decide
  · rw [← procOpt_isSome_iff]
    split_ifs with h1 h2 h3 h4 h5 h6 h7 h8 <;> simp_all
  · rw [show (∃ l, aggRecv discB = PyRes.val l ∧ l ≠ []) ↔ procList (aggRecv discB) ≠ [] from (procList_ne_nil_iff _).symm]
    split_ifs <;> simp_all [List.isEmpty_iff]
  · rw [show (∃ l, aggRecv newsB = PyRes.val l ∧ l ≠ []) ↔ procList (aggRecv newsB) ≠ [] from (procList_ne_nil_iff _).symm]
    split_ifs <;> simp_all [List.isEmpty_iff]
  · rw [← procOpt_isSome_iff]
    split_ifs <;> simp_all

/-- C3 fails as stated: a macro_snapshot call that requests a BOJ
dataset which succeeds while the statistics call fails ends with
sources_used equal to ["boj"], which is not a subset of the singleton
statistics-source set. -/
theorem macro_snapshot_claim_counterexample :
    (macro_snapshot "GDP" (some "short_term_rates") (CoroBehavior.raises "estat down")
        (CoroBehavior.completes []) (CoroBehavior.completes (some ⟨"short_term_rates"⟩))).sources_used
      = ["boj"]
    ∧ ¬ (macro_snapshot "GDP" (some "short_term_rates") (CoroBehavior.raises "estat down")
        (CoroBehavior.completes []) (CoroBehavior.completes (some ⟨"short_term_rates"⟩))).sources_used
      ⊆ ["estat"] := by
  have h : (macro_snapshot "GDP" (some "short_term_rates") (CoroBehavior.raises "estat down")
      (CoroBehavior.completes []) (CoroBehavior.completes (some ⟨"short_term_rates"⟩))).sources_used
      = ["boj"] := rfl
  refine ⟨h, ?_⟩
  rw [h]
  intro hsub
  have hm : ("boj" : String) ∈ ["estat"] := hsub (by simp)
  simp at hm

/-- C3 as amended: for every macro_snapshot call, sources_used is a
subset of the three names estat, boj and news; the statistics name
appears iff the statistics outcome succeeded with a non-empty table
list; and in a call that requests no BOJ dataset (argument absent or
empty) and whose news outcome contributes no items, sources_used is a
subset of the singleton statistics-source set and is empty whenever the
statistics call fails or times out. -/
theorem macro_snapshot_sources (keyword : String) (boj_dataset : Option String)
    (estatB : CoroBehavior (List EstatRec))
    (newsB : CoroBehavior (List NewsRec))
    (bojB : CoroBehavior (Option BojRec)) :
    (macro_snapshot keyword boj_dataset estatB newsB bojB).sources_used
        ⊆ ["estat", "boj", "news"]
    ∧ ("estat" ∈ (macro_snapshot keyword boj_dataset estatB newsB bojB).sources_used
        ↔ ∃ l, aggRecv estatB = PyRes.val l ∧ l ≠ [])
    ∧ (pyTruthy boj_dataset = false → procList (aggRecv newsB) = [] →
        ((macro_snapshot keyword boj_dataset estatB newsB bojB).sources_used ⊆ ["estat"]
        ∧ (failsOrTimesOut estatB →
            (macro_snapshot keyword boj_dataset estatB newsB bojB).sources_used = []))) := by
  have hsrc : (macro_snapshot keyword boj_dataset estatB newsB bojB).sources_used =
      (if (procList (aggRecv estatB)).isEmpty then [] else ["estat"])
      ++ (if (procOpt (if pyTruthy boj_dataset then aggRecv bojB else .val none)).isSome then ["boj"] else [])
      ++ (if (procList (aggRecv newsB)).isEmpty then [] else ["news"]) := rfl
  rw [hsrc]
  refine ⟨?_, ?_, ?_⟩
  · split_ifs <;> decide
  · rw [show (∃ l, aggRecv estatB = PyRes.val l ∧ l ≠ []) ↔ procList (aggRecv estatB) ≠ [] from (procList_ne_nil_iff _).symm]
    split_ifs <;> simp_all [List.isEmpty_iff]
  · intro hb hnews
    rw [hb, hnews]
    have he : procOpt (PyRes.val (none : Option BojRec)) = none := rfl
    constructor
    · simp [he]
      split_ifs <;> intro a ha <;> simp_all
    · intro hfail
      have : procList (aggRecv estatB) = [] := procList_of_failsOrTimesOut hfail
      simp [this, he]

/-- Witness for the amended C3: a concrete call with no BOJ dataset, a
timed-out news call and a failed statistics call yields empty
sources_used. -/
theorem macro_snapshot_sources_witness :
    (macro_snapshot "CPI" none (CoroBehavior.raises "down")
        CoroBehavior.timesOut CoroBehavior.timesOut).sources_used = [] :=
  ((macro_snapshot_sources "CPI" none (CoroBehavior.raises "down")
      CoroBehavior.timesOut CoroBehavior.timesOut).2.2 rfl rfl).2
    (Or.inl ⟨"down", rfl⟩)

/-- Accumulating the disclosure total only over non-empty entries, as
the source loop does, equals the sum of all entries' lengths. -/
theorem earningsTotal_eq (l : List EarningsEntry) :
    earningsTotal l = (l.map fun e => e.disclosures.length).sum := by
  suffices h : ∀ acc : Nat, l.foldl
      (fun acc e =>
        if e.disclosures.isEmpty then acc else acc + e.disclosures.length)
      acc = acc + (l.map fun e => e.disclosures.length).sum by
    simpa [earningsTotal] using h 0
  induction l with
  | nil => intro acc; simp
  | cons e t ih =>
    intro acc
    rw [List.foldl_cons, ih]
    simp only [List.map_cons, List.sum_cons]
    by_cases he : e.disclosures.isEmpty
    · have h0 : e.disclosures.length = 0 := by
        rw [List.isEmpty_iff] at he
        simp [he]
      rw [if_pos he, h0]
      omega
    · rw [if_neg he]
      omega

/-- C5: for every watchlist and matching assignment of per-code
outcomes, total_disclosures equals the sum over all entries of the
length of that entry's disclosure list, the watchlist source name is in
sources_used iff that total is positive, and no other name appears. -/
theorem earnings_monitor_total (codes : List String)
    (outs : List (CoroBehavior (List DiscRec)))
    (_hlen : outs.length = codes.length) :
    (earnings_monitor codes outs).total_disclosures
      = ((earnings_monitor codes outs).companies.map fun e => e.disclosures.length).sum
    ∧ ("tdnet" ∈ (earnings_monitor codes outs).sources_used
        ↔ 0 < (earnings_monitor codes outs).total_disclosures)
    ∧ (earnings_monitor codes outs).sources_used ⊆ ["tdnet"] := by
  refine ⟨earningsTotal_eq _, ?_, ?_⟩
  · show ("tdnet" ∈ (if earningsTotal ((codes.zip outs).map fun p => earningsEntry p.1 p.2) > 0 then ["tdnet"] else []))
      ↔ 0 < earningsTotal ((codes.zip outs).map fun p => earningsEntry p.1 p.2)
    split_ifs with hp <;> simp_all
  · show (if earningsTotal ((codes.zip outs).map fun p => earningsEntry p.1 p.2) > 0 then ["tdnet"] else []) ⊆ ["tdnet"]
    split_ifs <;> simp

/-- Witness for C5 at a concrete two-code watchlist with one success
and one failure. -/
theorem earnings_monitor_total_witness :
    (earnings_monitor ["7203", "6758"]
        [CoroBehavior.completes [⟨some "Toyota"⟩], CoroBehavior.raises "err"]).total_disclosures
      = ((earnings_monitor ["7203", "6758"]
        [CoroBehavior.completes [⟨some "Toyota"⟩], CoroBehavior.raises "err"]).companies.map
          fun e => e.disclosures.length).sum
    ∧ ("tdnet" ∈ (earnings_monitor ["7203", "6758"]
        [CoroBehavior.completes [⟨some "Toyota"⟩], CoroBehavior.raises "err"]).sources_used
        ↔ 0 < (earnings_monitor ["7203", "6758"]
        [CoroBehavior.completes [⟨some "Toyota"⟩], CoroBehavior.raises "err"]).total_disclosures)
    ∧ (earnings_monitor ["7203", "6758"]
        [CoroBehavior.completes [⟨some "Toyota"⟩], CoroBehavior.raises "err"]).sources_used
      ⊆ ["tdnet"] :=
  earnings_monitor_total ["7203", "6758"]
    [CoroBehavior.completes [⟨some "Toyota"⟩], CoroBehavior.raises "err"] rfl

/-- C6: for every watchlist, duplicates and the empty list included,
the companies list has one entry per input code in input order with no
deduplication, every entry's metrics field is absent, and an entry
whose guarded fetch failed or timed out has an empty disclosure list
and an absent company_name. -/
theorem earnings_monitor_entries (codes : List String)
    (outs : List (CoroBehavior (List DiscRec)))
    (hlen : outs.length = codes.length) :
    (earnings_monitor codes outs).companies.length = codes.length
    ∧ (∀ i (hi : i < codes.length)
        (hc : i < (earnings_monitor codes outs).companies.length),
        ((earnings_monitor codes outs).companies.get ⟨i, hc⟩).code
          = codes.get ⟨i, hi⟩)
    ∧ (∀ e ∈ (earnings_monitor codes outs).companies, e.metrics = none)
    ∧ (∀ i (hi : i < outs.length)
        (hc : i < (earnings_monitor codes outs).companies.length),
        failsOrTimesOut (outs.get ⟨i, hi⟩) →
        ((earnings_monitor codes outs).companies.get ⟨i, hc⟩).disclosures = []
        ∧ ((earnings_monitor codes outs).companies.get ⟨i, hc⟩).company_name = none) := by
  have hcomp : (earnings_monitor codes outs).companies
      = (codes.zip outs).map fun p => earningsEntry p.1 p.2 := rfl
  have hlength : (earnings_monitor codes outs).companies.length = codes.length := by
    rw [hcomp]
    simp [List.length_zip, hlen]
  refine ⟨hlength, ?_, ?_, ?_⟩
  · intro i hi hc
    have hz : i < (codes.zip outs).length := by
      simp [List.length_zip, hlen]
      omega
    simp [hcomp, List.get_eq_getElem, List.getElem_map, List.getElem_zip,
      earningsEntry]
  · intro e he
    rw [hcomp] at he
    simp [List.mem_map] at he
    obtain ⟨p, q, _, hpe⟩ := he
    rw [← hpe]
    rfl
  · intro i hi hc hfail
    have hz : i < (codes.zip outs).length := by
      simp [List.length_zip, hlen]
      omega
    have hout : ((codes.zip outs).get ⟨i, hz⟩).2 = outs.get ⟨i, hi⟩ := by
      simp [List.get_eq_getElem, List.getElem_zip]
    have hpl : procList (aggRecv outs[i]) = [] :=
      procList_of_failsOrTimesOut hfail
    constructor
    · simp [hcomp, List.get_eq_getElem, List.getElem_map, List.getElem_zip,
        earningsEntry, hpl]
    · simp [hcomp, List.get_eq_getElem, List.getElem_map, List.getElem_zip,
        earningsEntry, hpl]

/-- Witness for C6 at a duplicated two-code watchlist with one success
and one timeout. -/
theorem earnings_monitor_entries_witness :
    (earnings_monitor ["7203", "7203"]
        [CoroBehavior.completes [⟨some "Toyota"⟩], CoroBehavior.timesOut]).companies.length
      = (["7203", "7203"] : List String).length :=
  (earnings_monitor_entries ["7203", "7203"]
    [CoroBehavior.completes [⟨some "Toyota"⟩], CoroBehavior.timesOut] rfl).1

/-- C10: the news adapter returns the empty list for every query and
limit, and consequently, whenever the news call's behaviour is
consistent with get_news (any value it completes with is get_news's
result; a failure or timeout is also allowed), the source name "news"
never appears in the sources_used of an analyze_company or
macro_snapshot result. -/
theorem get_news_stub (q : Option String) (lim : Nat)
    (code : String) (e0 : Option String) (search : List SearchRec)
    (stmtB : CoroBehavior (Option StmtRec))
    (discB : CoroBehavior (List DiscRec))
    (stockB : CoroBehavior (Option PriceRec))
    (newsB : CoroBehavior (List NewsRec))
    (hnews : ∀ v, newsB = CoroBehavior.completes v → v = get_news q lim)
    (keyword : String) (boj_dataset : Option String)
    (estatB : CoroBehavior (List EstatRec))
    (bojB : CoroBehavior (Option BojRec)) :
    get_news q lim = []
    ∧ "news" ∉ (analyze_company code e0 search stmtB discB newsB stockB).sources_used
    ∧ "news" ∉ (macro_snapshot keyword boj_dataset estatB newsB bojB).sources_used := by
  have hn : procList (aggRecv newsB) = [] := by
    cases newsB with
    | completes v =>
      rw [show procList (aggRecv (CoroBehavior.completes v)) = v from rfl,
        hnews v rfl]
      rfl
    | raises m => rfl
    | timesOut => rfl
  refine ⟨rfl, ?_, ?_⟩
  · have hsrc : (analyze_company code e0 search stmtB discB newsB stockB).sources_used =
        (if (procOpt (stmtRaw (resolveCompany e0 search).1 stmtB)).isSome then ["edinet"] else [])
        ++ (if (procList (aggRecv discB)).isEmpty then [] else ["tdnet"])
        ++ (if (procList (aggRecv newsB)).isEmpty then [] else ["news"])
        ++ (if (procOpt (aggRecv stockB)).isSome then ["jquants"] else []) := rfl
    rw [hsrc, hn]
    split_ifs <;> simp_all
  · have hsrc : (macro_snapshot keyword boj_dataset estatB newsB bojB).sources_used =
        (if (procList (aggRecv estatB)).isEmpty then [] else ["estat"])
        ++ (if (procOpt (if pyTruthy boj_dataset then aggRecv bojB else .val none)).isSome then ["boj"] else [])
        ++ (if (procList (aggRecv newsB)).isEmpty then [] else ["news"]) := rfl
    rw [hsrc, hn]
    split_ifs <;> simp_all

/-- Witness for C10 at concrete inputs whose news call completes with
the news adapter's actual (empty) result. -/
theorem get_news_stub_witness :
    get_news (some "Toyota") 5 = []
    ∧ "news" ∉ (analyze_company "7203" none [] CoroBehavior.timesOut
        (CoroBehavior.raises "x") (CoroBehavior.completes [])
        (CoroBehavior.completes none)).sources_used
    ∧ "news" ∉ (macro_snapshot "GDP" none CoroBehavior.timesOut
        (CoroBehavior.completes []) CoroBehavior.timesOut).sources_used :=
  get_news_stub (some "Toyota") 5 "7203" none [] CoroBehavior.timesOut
    (CoroBehavior.raises "x") (CoroBehavior.completes none)
    (CoroBehavior.completes [])
    (fun _v h => (CoroBehavior.completes.inj h).symm)
    "GDP" none CoroBehavior.timesOut CoroBehavior.timesOut

/-- C9: check_available_sources is deterministic and idempotent — its
output depends only on the importability of the five backing packages,
so two calls in an unchanged environment return identical mappings —
and its effect trace consists of import probes only, never a network
call. -/
theorem check_available_sources_pure (env env2 : String → Bool)
    (h : ∀ p ∈ sourcePkgs, env p.2 = env2 p.2) :
    (check_available_sources env).1 = (check_available_sources env2).1
    ∧ ∀ e ∈ (check_available_sources env).2, ∃ pkg, e = Effect.importProbe pkg := by
  have h1 := h ("edinet", "edinet_mcp") (by simp [sourcePkgs])
  have h2 := h ("tdnet", "tdnet_disclosure_mcp") (by simp [sourcePkgs])
  have h3 := h ("estat", "estat_mcp") (by simp [sourcePkgs])
  have h4 := h ("boj", "boj_mcp") (by simp [sourcePkgs])
  have h5 := h ("stock", "yfinance_mcp") (by simp [sourcePkgs])
  simp only at h1 h2 h3 h4 h5
  constructor
  · simp [check_available_sources, sourcePkgs, is_available, h1, h2, h3, h4, h5]
  · intro e he
    simp [check_available_sources, sourcePkgs, is_available] at he
    rcases he with rfl | rfl | rfl | rfl | rfl <;> exact ⟨_, rfl⟩

/-- Witness for C9: a concrete environment compared with itself, with
the edinet import probe exhibited from the resulting trace. -/
theorem check_available_sources_pure_witness :
    ∃ pkg, Effect.importProbe "edinet_mcp" = Effect.importProbe pkg :=
  (check_available_sources_pure envBojOnly envBojOnly (fun _ _ => rfl)).2
    (Effect.importProbe "edinet_mcp") (by decide)

theorem str_data_append (a b : String) : (a ++ b).data = a.data ++ b.data := rfl

theorem str_length_data (s : String) : s.length = s.data.length := rfl

theorem str_length_append (a b : String) :
    (a ++ b).length = a.length + b.length := by
  rw [str_length_data, str_length_data, str_length_data, str_data_append]
  exact List.length_append _ _

theorem not_claimedStatusForm_ok_installed :
    ¬ claimedStatusForm "ok (installed)" := by
  rintro (⟨n, hn⟩ | ⟨r, hr⟩ | hq)
  · have hlen := congrArg String.length hn
    rw [str_length_append, str_length_append] at hlen
    have e1 : ("ok (installed)" : String).length = 14 := rfl
    have e2 : ("ok (" : String).length = 4 := rfl
    have e3 : (" results)" : String).length = 9 := rfl
    rw [e1, e2, e3] at hlen
    have hone : (toString n).data.length = 1 := by
      rw [← str_length_data]
      omega
    obtain ⟨c, hc⟩ := List.length_eq_one.mp hone
    have hdata := congrArg String.data hn
    rw [str_data_append, str_data_append, hc] at hdata
    have hdata2 : ('o' :: 'k' :: ' ' :: '(' :: 'i' :: 'n' :: 's' :: 't' :: 'a' :: 'l' :: 'l' :: 'e' :: 'd' :: ')' :: []) =
        ('o' :: 'k' :: ' ' :: '(' :: c :: ' ' :: 'r' :: 'e' :: 's' :: 'u' :: 'l' :: 't' :: 's' :: ')' :: []) := hdata
    injection hdata2 with g1 h
    injection h with g2 h
    injection h with g3 h
    injection h with g4 h
    injection h with g5 h
    injection h with g6 h
    exact absurd g6 (by decide)
  · have hdata := congrArg String.data hr
    rw [str_data_append] at hdata
    have hdata2 : ('o' :: 'k' :: ' ' :: '(' :: 'i' :: 'n' :: 's' :: 't' :: 'a' :: 'l' :: 'l' :: 'e' :: 'd' :: ')' :: []) =
        ('e' :: 'r' :: 'r' :: 'o' :: 'r' :: ':' :: ' ' :: r.data) := hdata
    injection hdata2 with g1 h
    exact absurd g1 (by decide)
  · exact absurd hq (by decide)

theorem test_connections_claim_counterexample :
    ("boj", "ok (installed)")
      ∈ test_connections envBojOnly (ClientB.ret []) (ClientB.ret []) (ClientB.ret [])
    ∧ ¬ claimedStatusForm "ok (installed)" := by
  refine ⟨?_, not_claimedStatusForm_ok_installed⟩
  decide

theorem connectionStatus_form (env : String → Bool)
    (edinetC : ClientB (List EdinetCompany))
    (tdnetC : ClientB (List LatestDisc))
    (estatC : ClientB (List EstatRec))
    (source : String) (avail : Bool) (s : String)
    (h : connectionStatus env edinetC tdnetC estatC source avail = some s) :
    amendedStatusForm s := by
  unfold connectionStatus at h
  split_ifs at h with h1 h2 h3 h4 h5 h6
  · exact Or.inl (Or.inr (Or.inr (Option.some.inj h).symm))
  · exact Or.inl (Or.inl ⟨_, (Option.some.inj h).symm⟩)
  · exact Or.inl (Or.inl ⟨_, (Option.some.inj h).symm⟩)
  · exact Or.inl (Or.inl ⟨_, (Option.some.inj h).symm⟩)
  · exact Or.inl (Or.inl ⟨_, (Option.some.inj h).symm⟩)
  · exact Or.inr (Option.some.inj h).symm

theorem statusFold_mem (env : String → Bool)
    (edinetC : ClientB (List EdinetCompany))
    (tdnetC : ClientB (List LatestDisc))
    (estatC : ClientB (List EstatRec))
    (l : List (String × Bool)) (acc : List (String × String))
    (p : String × String)
    (hp : p ∈ l.foldl
      (fun acc q =>
        match connectionStatus env edinetC tdnetC estatC q.1 q.2 with
        | some s => acc ++ [(q.1, s)]
        | none => acc)
      acc) :
    p ∈ acc
    ∨ ∃ q ∈ l, connectionStatus env edinetC tdnetC estatC q.1 q.2 = some p.2 := by
  induction l generalizing acc with
  | nil => exact Or.inl hp
  | cons q t ih =>
    rw [List.foldl_cons] at hp
    rcases hcs : connectionStatus env edinetC tdnetC estatC q.1 q.2 with _ | s
    · rw [hcs] at hp
      rcases ih _ hp with h1 | ⟨q2, hq2, hq2s⟩
      · exact Or.inl h1
      · exact Or.inr ⟨q2, List.mem_cons_of_mem _ hq2, hq2s⟩
    · rw [hcs] at hp
      rcases ih _ hp with h1 | ⟨q2, hq2, hq2s⟩
      · rcases List.mem_append.mp h1 with ha | hb
        · exact Or.inl ha
        · have hpq : p = (q.1, s) := by simpa using hb
          refine Or.inr ⟨q, List.mem_cons_self _ _, ?_⟩
          rw [hcs, hpq]
      · exact Or.inr ⟨q2, List.mem_cons_of_mem _ hq2, hq2s⟩

theorem test_connections_status_forms (env : String → Bool)
    (edinetC : ClientB (List EdinetCompany))
    (tdnetC : ClientB (List LatestDisc))
    (estatC : ClientB (List EstatRec)) :
    ((test_connections env edinetC tdnetC estatC).map Prod.fst
      = ["edinet", "tdnet", "estat", "boj", "stock"])
    ∧ ∀ p ∈ test_connections env edinetC tdnetC estatC, amendedStatusForm p.2 := by
  constructor
  · by_cases h1 : env "edinet_mcp" <;> by_cases h2 : env "tdnet_disclosure_mcp" <;>
      by_cases h3 : env "estat_mcp" <;> by_cases h4 : env "boj_mcp" <;>
      by_cases h5 : env "yfinance_mcp" <;>
      simp [test_connections, check_available_sources, sourcePkgs,
        is_available, connectionStatus, h1, h2, h3, h4, h5]
  · intro p hp
    rcases statusFold_mem env edinetC tdnetC estatC _ _ p hp with h | ⟨q, _, hq⟩
    · simp at h
    · exact connectionStatus_form env edinetC tdnetC estatC q.1 q.2 p.2 hq

end JFA
